import Mathlib

/-!
Shallow embedding of `src/app.py` (SimPLL "Link Spread Insights Dashboard").

The dashboard loads a CSV of posts into a pandas dataframe `df`, filters
rows by a user-typed domain query, aggregates daily post counts, renders
charts and builds an optional PDF report.  We embed the dataframe as a
`List Row`, pandas/NumPy timestamps as epoch seconds (`Nat`), missing
(`NaN`) domain cells as `Option String`, and each helper function of the
script as a Lean function of the same name.

`df['domain'].str.contains(domain, case=False, na=False)` uses pandas'
default `regex=True`, so the query is compiled as a Python regular
expression with `re.IGNORECASE`.  We embed the fragment of that regex
language relevant to domain queries: literal characters, the `.`
wildcard, and the escapes `\d`, `\D`, `\\`.  Patterns outside the
fragment (other metacharacters, other escapes, a trailing backslash)
parse to `none`; a `none` result of the filter models an uncaught
exception escaping `get_domain_data` (for example `re.error` on the
pattern `"("`).
-/

set_option autoImplicit false

/-- One row of `processed.csv` after the load at the top of `app.py`:
`created_utc` parsed to a timestamp (embedded as epoch seconds),
`subreddit`, `domain` (a possibly missing text cell) and `title`. -/
structure Row where
  created_utc : Nat
  subreddit : String
  domain : Option String
  title : String
deriving DecidableEq

/-- ASCII case folding on code points, modelling `re.IGNORECASE` (and
pandas `case=False`) on the ASCII strings the dashboard handles:
uppercase letters `A`–`Z` (65–90) map to lowercase, all else is fixed. -/
def lowerN (n : Nat) : Nat := if 65 ≤ n ∧ n ≤ 90 then n + 32 else n

/-- Code points of the `re` metacharacters not modelled by our fragment:
`$ ( ) * + ? [ ] ^` and brace/pipe/brace (123, 124, 125).  A query
containing one of them falls outside the embedded fragment. -/
def isMetaN (n : Nat) : Bool :=
  decide (n = 36 ∨ n = 40 ∨ n = 41 ∨ n = 42 ∨ n = 43 ∨ n = 63 ∨ n = 91 ∨
    n = 93 ∨ n = 94 ∨ n = 123 ∨ n = 124 ∨ n = 125)

/-- Tokens of the embedded regex fragment: a literal character, the `.`
wildcard, `\d` and `\D`. -/
inductive RTok where
  | lit (c : Char)
  | anyChar
  | digit
  | notDigit
deriving DecidableEq

/-- Compilation of a query string into fragment tokens, modelling
`re.compile`: `\d`, `\D` and `\\` are the supported escapes, a trailing
backslash is a `re.error`, `.` is the wildcard, metacharacters are
outside the fragment, every other character is a literal.  `none` means
the pattern is invalid or outside the modelled fragment. -/
def parseTok : List Char → Option (List RTok)
  | [] => some []
  | c :: rest =>
    if c = '\\' then
      match rest with
      | [] => none
      | e :: rest' =>
        if e = 'd' then (parseTok rest').map (RTok.digit :: ·)
        else if e = 'D' then (parseTok rest').map (RTok.notDigit :: ·)
        else if e = '\\' then (parseTok rest').map (RTok.lit '\\' :: ·)
        else none
    else if isMetaN c.toNat then none
    else if c = '.' then (parseTok rest).map (RTok.anyChar :: ·)
    else (parseTok rest).map (RTok.lit c :: ·)

/-- Matching of one token against one character under `re.IGNORECASE`:
literals compare case-folded, `.` matches anything but a newline,
`\d` matches an ASCII digit, `\D` its complement. -/
def tokMatches : RTok → Char → Bool
  | RTok.lit c, ch => lowerN c.toNat = lowerN ch.toNat
  | RTok.anyChar, ch => ch.toNat ≠ 10
  | RTok.digit, ch => 48 ≤ ch.toNat ∧ ch.toNat ≤ 57
  | RTok.notDigit, ch => ¬(48 ≤ ch.toNat ∧ ch.toNat ≤ 57)

/-- Tokens matching a prefix of the character list. -/
def matchAt : List RTok → List Char → Bool
  | [], _ => true
  | _ :: _, [] => false
  | t :: ts, c :: cs => tokMatches t c && matchAt ts cs

/-- Tokens matching somewhere in the character list, modelling
`re.search` as used by `Series.str.contains`. -/
def rsearch (toks : List RTok) : List Char → Bool
  | [] => matchAt toks []
  | c :: cs => matchAt toks (c :: cs) || rsearch toks cs

/-- Predicate of the boolean mask `df['domain'].str.contains(domain,
case=False, na=False)` on one row: a missing domain cell yields `False`
(`na=False`), otherwise the compiled pattern is searched in the cell. -/
def rowMatch (toks : List RTok) (r : Row) : Bool :=
  match r.domain with
  | none => false
  | some s => rsearch toks s.data

/-- Embedding of `get_domain_data` (app.py lines 24–27), with the global
`df` passed explicitly.  A falsy (empty) query returns an empty
dataframe; otherwise the rows matching the compiled pattern are kept.
`none` models an exception escaping the call (invalid pattern). -/
def get_domain_data (df : List Row) (domain : String) : Option (List Row) :=
  if domain = "" then some []
  else (parseTok domain.data).map (fun toks => df.filter (rowMatch toks))

/-- Calendar-day bucket of a timestamp: `resample('D')` groups epoch
seconds by UTC day. -/
def dayOf (t : Nat) : Nat := t / 86400

/-- Number of rows of `data` whose timestamp falls on day `d`. -/
def countOnDay (data : List Row) (d : Nat) : Nat :=
  (data.filter (fun r => dayOf r.created_utc = d)).length

/-- Least element of a nonempty list of naturals (0 for the empty list,
a dead branch at every use site). -/
def listMin : List Nat → Nat
  | [] => 0
  | [x] => x
  | x :: y :: ys => min x (listMin (y :: ys))

/-- Greatest element of a list of naturals. -/
def listMax : List Nat → Nat
  | [] => 0
  | x :: xs => max x (listMax xs)

/-- Embedding of `data.resample('D', on='created_utc').size()` as used in
`plot_time_series` (app.py line 31) and `generate_insights` (line 59):
for nonempty data, one bucket per calendar day from the earliest to the
latest day present, in ascending order, each carrying the number of rows
on that day (gap days carry 0); for empty data, an empty series. -/
def resampleDailySize (data : List Row) : List (Nat × Nat) :=
  match data with
  | [] => []
  | _ :: _ =>
    let ds := data.map (fun r => dayOf r.created_utc)
    let lo := listMin ds
    let hi := listMax ds
    (List.range (hi + 1 - lo)).map (fun i => (lo + i, countOnDay data (lo + i)))

/-- Embedding of `Series.idxmax` on a daily-count series: the first index
(day) carrying the maximal value, in series order. -/
def seriesIdxmax (l : List (Nat × Nat)) : Nat :=
  match l with
  | [] => 0
  | p :: _ => (l.foldl (fun best q => if q.2 > best.2 then q else best) p).1

/-- Embedding of `Series.max` on a daily-count series of naturals. -/
def seriesMax (l : List (Nat × Nat)) : Nat :=
  (l.map Prod.snd).foldr max 0

/-- Occurrences of `x` in `l`, as counted by `value_counts()`. -/
def countOcc (l : List String) (x : String) : Nat :=
  (l.filter (fun y => y = x)).length

/-- Embedding of `value_counts().idxmax()` on a string column: an element
with the maximal occurrence count.  pandas leaves the order of tied
counts unspecified; the embedding picks the first occurrence.  The empty
case is dead at every (guarded) use site. -/
def argmaxCount (l : List String) : String :=
  match l with
  | [] => ""
  | x :: _ => l.foldl (fun best y => if countOcc l y > countOcc l best then y else best) x

/-- Civil date `(year, month, day)` of a day count since 1970-01-01,
the standard era-based conversion used to embed `strftime` on a
`DatetimeIndex` entry. -/
def civilFromDays (z0 : Nat) : Nat × Nat × Nat :=
  let z := z0 + 719468
  let era := z / 146097
  let doe := z % 146097
  let yoe := (doe - doe / 1460 + doe / 36524 - doe / 146096) / 365
  let y := yoe + era * 400
  let doy := doe - (365 * yoe + yoe / 4 - yoe / 100)
  let mp := (5 * doy + 2) / 153
  let d := doy - (153 * mp + 2) / 5 + 1
  let m := if mp < 10 then mp + 3 else mp - 9
  (if m ≤ 2 then y + 1 else y, m, d)

/-- Abbreviated month name, as printed by `strftime('%b')` in the C
locale. -/
def monthName : Nat → String
  | 1 => "Jan" | 2 => "Feb" | 3 => "Mar" | 4 => "Apr"
  | 5 => "May" | 6 => "Jun" | 7 => "Jul" | 8 => "Aug"
  | 9 => "Sep" | 10 => "Oct" | 11 => "Nov" | 12 => "Dec"
  | _ => ""

/-- Zero-padded two-digit day, as printed by `strftime('%d')`. -/
def pad2 (n : Nat) : String :=
  if n < 10 then "0" ++ toString n else toString n

/-- Embedding of `.strftime('%b %d, %Y')` on a day index (app.py
line 59). -/
def strftimeBDY (day : Nat) : String :=
  match civilFromDays day with
  | (y, m, d) => monthName m ++ " " ++ pad2 d ++ ", " ++ toString y

/-- Embedding of `generate_insights` (app.py lines 54–65): an empty
filtered dataframe yields the no-data message; otherwise the top
subreddit and the peak posting day are interpolated into the three
bullet lines. -/
def generate_insights (data : List Row) (domain : String) : String :=
  if data.isEmpty then "No data found for " ++ domain ++ "."
  else
    let top_sub := argmaxCount (data.map (fun r => r.subreddit))
    let peak_day := strftimeBDY (seriesIdxmax (resampleDailySize data))
    "• **" ++ domain ++ "** is primarily shared in **r/" ++ top_sub ++ "**.\n" ++
    "• Posting peaks on **" ++ peak_day ++ "**, suggesting event-based amplification.\n" ++
    "• Posting frequency suggests **coordinated or recurring engagement patterns.**"

/-- Embedding of the value `ts1.max() if len(ts1) else 0` shown by
`st.metric("Peak Posts in a Day", ...)` (app.py line 155) and reused as
the `"Peak Posts"` stat (line 203), where `ts1` is the daily series of
the filtered rows. -/
def peakPostsMetric (filtered : List Row) : Nat :=
  let ts := resampleDailySize filtered
  if ts.length ≠ 0 then seriesMax ts else 0

/-- Embedding of the `stats` dict built at app.py lines 201–205, with
the Python int values already rendered to the strings drawn by
`generate_pdf`. -/
def statsOf (filtered1 : List Row) (top_sub1 : String) : List (String × String) :=
  [("Total Posts", toString filtered1.length),
   ("Peak Posts", toString (peakPostsMetric filtered1)),
   ("Top Subreddit", top_sub1)]

/-- Drawing operations recorded on a reportlab canvas page; coordinates
are the integer points passed by `generate_pdf` (the `y` cursor is kept
in `Int` because the Python value may go negative off-page). -/
inductive Op where
  | setFont (font : String) (size : Nat)
  | drawString (x y : Int) (s : String)
  | drawImage (path : String) (x y w : Int)
deriving DecidableEq

/-- Embedding of the `for key, value in stats.items()` loop of
`generate_pdf` (app.py lines 98–100): each stat line is drawn 18 points
below the previous `y`; the final `y` cursor is returned with the ops. -/
def drawKVs (y : Int) : List (String × String) → List Op × Int
  | [] => ([], y)
  | kv :: rest =>
    let r := drawKVs (y - 18) rest
    (Op.drawString 40 (y - 18) (kv.1 ++ ": " ++ kv.2) :: r.1, r.2)

/-- Embedding of the `for line in insights_text.split("\n")` loop of
`generate_pdf` (app.py lines 107–109): each line 15 points below the
previous `y`. -/
def drawTextLines (y : Int) : List String → List Op × Int
  | [] => ([], y)
  | line :: rest =>
    let r := drawTextLines (y - 15) rest
    (Op.drawString 40 (y - 15) line :: r.1, r.2)

/-- Condition `if chart and os.path.exists(chart)` of the chart loop
(app.py line 122); `fs` stands for the filesystem's `os.path.exists`. -/
def chartOk (fs : String → Bool) (p : String) : Bool :=
  !(p == "") && fs p

/-- Page produced for one chart: `drawImage(chart, 30, 150, width=500,
preserveAspectRatio=True)` on a fresh page (app.py line 124). -/
def imgPage (p : String) : List Op :=
  [Op.drawImage p 30 150 500]

/-- Embedding of the chart loop of `generate_pdf` (app.py lines
121–124) on the canvas state `(finished pages, current page)`: a chart
passing `chartOk` triggers `showPage()` (the current page is flushed)
followed by `drawImage` on the fresh page; any other entry is skipped. -/
def addCharts (fs : String → Bool) : List String → List (List Op) → List Op → List (List Op) × List Op
  | [], pages, cur => (pages, cur)
  | c :: rest, pages, cur =>
    if chartOk fs c then addCharts fs rest (pages ++ [cur]) (imgPage c)
    else addCharts fs rest pages cur

/-- Embedding of `canvas.save()` (app.py line 126): a nonempty current
page is flushed as the final page. -/
def savePDF (st : List (List Op) × List Op) : List (List Op) :=
  if st.2 ≠ [] then st.1 ++ [st.2] else st.1

/-- Operations drawn on the first page of the report by `generate_pdf`
(app.py lines 81–118): title, domain names, summary stats, insight
lines and the optional comparison verdict, with the `y` cursor
threaded exactly as in the source. -/
def textOps (domain1 domain2 : String) (stats : List (String × String))
    (insights_text : String) (comparison_note : Option String) : List Op :=
  let height : Int := 792
  let y := height - 50
  let ops : List Op := [Op.setFont "Helvetica-Bold" 18,
    Op.drawString 30 y "Link Spread Insights Report"]
  let y := y - 40
  let ops := ops ++ [Op.setFont "Helvetica" 12,
    Op.drawString 30 y ("Domain 1: " ++ domain1)]
  let st1 : List Op × Int :=
    if domain2 ≠ "" then
      (ops ++ [Op.drawString 30 (y - 20) ("Domain 2: " ++ domain2)], y - 20)
    else (ops, y)
  let ops := st1.1
  let y := st1.2 - 40
  let ops := ops ++ [Op.setFont "Helvetica-Bold" 14,
    Op.drawString 30 y "Summary Stats", Op.setFont "Helvetica" 11]
  let kv := drawKVs y stats
  let ops := ops ++ kv.1
  let y := kv.2 - 40
  let ops := ops ++ [Op.setFont "Helvetica-Bold" 14,
    Op.drawString 30 y "Insights", Op.setFont "Helvetica" 10]
  let tl := drawTextLines y (insights_text.splitOn "\n")
  let ops := ops ++ tl.1
  let y := tl.2
  match comparison_note with
  | some note =>
    ops ++ [Op.setFont "Helvetica-Bold" 14,
      Op.drawString 30 (y - 40) "Comparison Verdict",
      Op.setFont "Helvetica" 10,
      Op.drawString 40 (y - 40 - 18) note]
  | none => ops

/-- Embedding of `generate_pdf` (app.py lines 74–127): the text content
is drawn on the first page, then each chart path that is truthy and
exists on the filesystem `fs` gets its own page, and `save()` flushes
the last page.  The result is the page list of the produced document. -/
def generate_pdf (domain1 domain2 : String) (stats : List (String × String))
    (insights_text : String) (comparison_note : Option String)
    (chart_paths : List String) (fs : String → Bool) : List (List Op) :=
  let ops := textOps domain1 domain2 stats insights_text comparison_note
  savePDF (addCharts fs chart_paths [] ops)

/-- Modelled from the spec: the trend classification is absent from
`src/app.py` (spec §4 attributes it to another variant of the
dashboard).  Spec §4: "'trend' classification by comparing a
trailing-week mean to a preceding-week mean against fixed ratio
thresholds (>1.3× = increasing, <0.7× = declining, else stable)".
Means are embedded as rationals. -/
def classifyTrend (trailing preceding : ℚ) : String :=
  if trailing > 13 / 10 * preceding then "increasing"
  else if trailing < 7 / 10 * preceding then "declining"
  else "stable"

/-- Modelled from the spec: the per-row emotion classification with its
catch-all fallback is absent from `src/app.py` (spec §7: "a blanket
catch-all around one per-row emotion-classification call that
substitutes a constant 'unknown' label on any failure").  The external
classifier is a parameter returning `Except`; the wrapper substitutes
`"unknown"` on any failure, ignoring the error value. -/
def classify_emotion_safe (classify : Row → Except String String) (r : Row) : String :=
  match classify r with
  | Except.ok label => label
  | Except.error _ => "unknown"

/-- Values computed by one render of the dashboard body (app.py lines
141–216) when `domain1` is nonempty and no filter raised. -/
structure AppOutputs where
  filtered1 : List Row
  filtered2 : List Row
  ts1 : List (Nat × Nat)
  totalPosts : Nat
  peakPosts : Nat
  topSub : String
  comparisonNote : Option String
  insightsText : String
  stats : List (String × String)
  pdfPages : List (List Op)
deriving DecidableEq

/-- Embedding of the script body (app.py lines 141–216), threading the
loaded table through every step: the first component of the result is
the table the run leaves behind (no statement of the source assigns to
`df` or to a column of `df` after the load), the second the outputs.
`none` outputs model a render where `domain1` is falsy (the body under
`if domain1:` does not run) or an exception escaped a filter call.
`charts` stands for the temp-file paths returned by `save_chart` and
`fs` for `os.path.exists`. -/
def runApp (df : List Row) (domain1 domain2 : String) (fs : String → Bool)
    (charts : List String) : List Row × Option AppOutputs :=
  match get_domain_data df domain1,
        (if domain2 ≠ "" then get_domain_data df domain2 else some []) with
  | some filtered1, some filtered2 =>
    if domain1 = "" then (df, none)
    else
      let ts1 := resampleDailySize filtered1
      let top_sub1 := if !filtered1.isEmpty then
          argmaxCount (filtered1.map (fun r => r.subreddit)) else "N/A"
      let comparison_note :=
        if domain2 ≠ "" ∧ !filtered2.isEmpty then
          let diff : Int := (filtered1.length : Int) - (filtered2.length : Int)
          some (if diff > 0 then
              "🔍 **" ++ domain1 ++ " shows stronger amplification than " ++
                domain2 ++ " by " ++ toString diff ++ " posts.**"
            else if diff < 0 then
              "🔍 **" ++ domain2 ++ " shows stronger amplification than " ++
                domain1 ++ " by " ++ toString diff.natAbs ++ " posts.**"
            else "⚖ Both domains demonstrate equal engagement.")
        else none
      let insights_text := generate_insights filtered1 domain1
      let stats := statsOf filtered1 top_sub1
      let pdf := generate_pdf domain1 domain2 stats insights_text comparison_note charts fs
      (df, some ⟨filtered1, filtered2, ts1, filtered1.length, peakPostsMetric filtered1,
        top_sub1, comparison_note, insights_text, stats, pdf⟩)
  | _, _ => (df, none)

/-! ### Sample rows used by concrete witnesses and counterexamples -/

/-- A row whose domain cell is `"cnn.com"`. -/
def rowCnn : Row := ⟨0, "news", some "cnn.com", "t"⟩

/-- A row whose domain cell is missing (`NaN`). -/
def rowNull : Row := ⟨0, "s", none, "t"⟩

/-- A row whose domain cell is the digit string `"111"`. -/
def rowOnes : Row := ⟨0, "s", some "111", "t"⟩

/-! ### General helper lemmas -/

theorem char_eq_of_toNat_eq {a b : Char} (h : a.toNat = b.toNat) : a = b := by
  rw [← Char.ofNat_toNat a, ← Char.ofNat_toNat b, h]

/-! ### Claim theorems -/

/-- C9: for the empty (falsy) query string, `get_domain_data` returns an
empty dataframe with zero rows, for every loaded table. -/
theorem c9_empty_query_yields_empty_frame (df : List Row) :
    get_domain_data df "" = some [] := by
  simp [get_domain_data]

/-- C8: the domain filter is null-safe.  For every non-empty query and
every table, a successful filter result never contains a row with a
missing domain cell, and whether the filter raises does not depend on
the table's contents (so null cells never cause a raise). -/
theorem c8_domain_filter_null_safe (q : String) (df : List Row) (h : q ≠ "") :
    (∀ res, get_domain_data df q = some res → ∀ r ∈ res, r.domain ≠ none) ∧
    (∀ df2 : List Row, (get_domain_data df q).isSome = (get_domain_data df2 q).isSome) := by
  constructor
  · intro res hres r hr
    unfold get_domain_data at hres
    rw [if_neg h] at hres
    cases hp : parseTok q.data with
    | none => rw [hp] at hres; exact absurd hres (by simp)
    | some toks =>
      rw [hp] at hres
      simp only [Option.map_some', Option.some.injEq] at hres
      subst hres
      rw [List.mem_filter] at hr
      have hm := hr.2
      unfold rowMatch at hm
      cases hd : r.domain with
      | none => rw [hd] at hm; simp at hm
      | some s => simp [hd]
  · intro df2
    unfold get_domain_data
    rw [if_neg h, if_neg h]
    cases parseTok q.data <;> rfl

/-- C8 witness at a concrete table holding a null-domain row. -/
theorem c8_domain_filter_null_safe_witness :
    rowCnn.domain ≠ none ∧
    (get_domain_data [rowNull, rowCnn] "c").isSome = (get_domain_data [] "c").isSome := by
  refine ⟨?_, (c8_domain_filter_null_safe "c" [rowNull, rowCnn] (by decide)).2 []⟩
  exact (c8_domain_filter_null_safe "c" [rowNull, rowCnn] (by decide)).1
    [rowCnn] (by decide) rowCnn (by decide)

/-- C1 counterexample: the claim quantifies over every domain string
that matches no row.  The query `"("` occurs nowhere in the domain
column, yet the filter raises (`re.error` from the regex compiler,
embedded as `none`) instead of returning a zero-row dataframe. -/
theorem c1_counterexample :
    ('(' ∉ "cnn.com".data) ∧ get_domain_data [rowCnn] "(" = none := by decide

/-- C1 amended: for every domain string that is a well-formed pattern
(in the embedded fragment) and matches no row of the domain column, the
filter returns a zero-row dataframe and `generate_insights` on that
empty result returns the no-data message instead of raising. -/
theorem c1_no_match_empty_and_message (df : List Row) (q : String) (toks : List RTok)
    (hp : parseTok q.data = some toks) (hm : ∀ r ∈ df, rowMatch toks r = false) :
    get_domain_data df q = some [] ∧
    generate_insights [] q = "No data found for " ++ q ++ "." := by
  constructor
  · unfold get_domain_data
    by_cases hq : q = ""
    · rw [if_pos hq]
    · rw [if_neg hq, hp]
      simp only [Option.map_some', Option.some.injEq]
      rw [List.filter_eq_nil_iff]
      intro r hr
      rw [hm r hr]
      simp
  · rfl

/-- C1 witness: the query `"zzz"` matches no row of a table holding only
`"cnn.com"`. -/
theorem c1_no_match_empty_and_message_witness :
    get_domain_data [rowCnn] "zzz" = some [] ∧
    generate_insights [] "zzz" = "No data found for " ++ "zzz" ++ "." :=
  c1_no_match_empty_and_message [rowCnn] "zzz"
    [RTok.lit 'z', RTok.lit 'z', RTok.lit 'z'] (by decide) (by decide)

/-- C6: the catch-all wrapper around the per-row emotion classification
substitutes the constant `"unknown"` on any failure and is the identity
on success; the domain filter, by contrast, propagates a failure
(`none`) rather than substituting a value. -/
theorem c6_emotion_catch_all (classify : Row → Except String String) (r : Row) :
    ((∃ e, classify r = Except.error e) → classify_emotion_safe classify r = "unknown") ∧
    (∀ lab, classify r = Except.ok lab → classify_emotion_safe classify r = lab) ∧
    (∀ (q : String) (df : List Row), q ≠ "" → parseTok q.data = none →
      get_domain_data df q = none) := by
  refine ⟨?_, ?_, ?_⟩
  · rintro ⟨e, he⟩
    unfold classify_emotion_safe
    rw [he]
  · intro lab hl
    unfold classify_emotion_safe
    rw [hl]
  · intro q df hq hp
    unfold get_domain_data
    rw [if_neg hq, hp]
    rfl

/-- C6 witness: a concretely failing classifier is replaced by
`"unknown"`, and the filter propagates the failure on pattern `"("`. -/
theorem c6_emotion_catch_all_witness :
    classify_emotion_safe (fun _ => Except.error "model failure") rowCnn = "unknown" ∧
    get_domain_data [rowCnn] "(" = none :=
  ⟨(c6_emotion_catch_all (fun _ => Except.error "model failure") rowCnn).1
      ⟨"model failure", rfl⟩,
   (c6_emotion_catch_all (fun _ => Except.error "e") rowCnn).2.2 "(" [rowCnn]
      (by decide) (by decide)⟩

/-- C5: for a nonnegative preceding mean (means of daily post counts
are nonnegative), the trend classification returns `"increasing"`
exactly when the trailing mean strictly exceeds 1.3 times the preceding
mean, `"declining"` exactly when it is strictly below 0.7 times the
preceding mean, and `"stable"` otherwise (both thresholds exclusive). -/
theorem c5_trend_thresholds (t p : ℚ) (hp : 0 ≤ p) :
    (classifyTrend t p = "increasing" ↔ 13 / 10 * p < t) ∧
    (classifyTrend t p = "declining" ↔ t < 7 / 10 * p) ∧
    (classifyTrend t p = "stable" ↔ (7 / 10 * p ≤ t ∧ t ≤ 13 / 10 * p)) := by
  unfold classifyTrend
  split_ifs with h1 h2
  · exact ⟨iff_of_true rfl (by linarith),
      iff_of_false (by decide) (by intro hh; linarith),
      iff_of_false (by decide) (by rintro ⟨_, hh⟩; linarith)⟩
  · exact ⟨iff_of_false (by decide) (by intro hh; linarith),
      iff_of_true rfl h2,
      iff_of_false (by decide) (by rintro ⟨hh, _⟩; linarith)⟩
  · exact ⟨iff_of_false (by decide) (by intro hh; linarith),
      iff_of_false (by decide) (by intro hh; linarith),
      iff_of_true rfl ⟨by linarith, by linarith⟩⟩

/-- C5 witness: the 1.3× boundary itself (trailing 130 against
preceding 100) is classified `"stable"`, the thresholds being strict. -/
theorem c5_trend_thresholds_witness : classifyTrend 130 100 = "stable" :=
  (c5_trend_thresholds 130 100 (by norm_num)).2.2.mpr (by norm_num)

/-- C7: one full render of the dashboard body leaves the loaded table
unchanged: every filter, aggregation, insight and PDF step operates on
filtered copies only (no statement of app.py assigns to `df` after the
load), so the table threaded through `runApp` comes back untouched. -/
theorem c7_source_table_never_mutated (df : List Row) (d1 d2 : String)
    (fs : String → Bool) (charts : List String) :
    (runApp df d1 d2 fs charts).1 = df := by
  unfold runApp
  cases get_domain_data df d1 with
  | none => rfl
  | some f1 =>
    cases (if d2 ≠ "" then get_domain_data df d2 else some []) with
    | none => rfl
    | some f2 =>
      dsimp only
      split <;> rfl

/-! ### Helper lemmas on list extrema and the daily series -/

theorem listMin_le (l : List Nat) : ∀ x ∈ l, listMin l ≤ x := by
  induction l with
  | nil => intro x hx; cases hx
  | cons y ys ih =>
    intro x hx
    cases ys with
    | nil =>
      simp only [List.mem_singleton] at hx
      subst hx
      exact Nat.le_refl _
    | cons z zs =>
      rw [listMin]
      rcases List.mem_cons.mp hx with rfl | hx'
      · exact min_le_left _ _
      · exact le_trans (min_le_right _ _) (ih x hx')

theorem le_listMax (l : List Nat) : ∀ x ∈ l, x ≤ listMax l := by
  induction l with
  | nil => intro x hx; cases hx
  | cons y ys ih =>
    intro x hx
    rw [listMax]
    rcases List.mem_cons.mp hx with rfl | hx'
    · exact le_max_left _ _
    · exact le_trans (ih x hx') (le_max_right _ _)

theorem seriesMax_cons (q : Nat × Nat) (l : List (Nat × Nat)) :
    seriesMax (q :: l) = max q.2 (seriesMax l) := rfl

theorem le_seriesMax (l : List (Nat × Nat)) : ∀ p ∈ l, p.2 ≤ seriesMax l := by
  induction l with
  | nil => intro p hp; cases hp
  | cons q l' ih =>
    intro p hp
    rw [seriesMax_cons]
    rcases List.mem_cons.mp hp with rfl | hp'
    · exact le_max_left _ _
    · exact le_trans (ih p hp') (le_max_right _ _)

theorem foldr_max_attained (vals : List Nat) :
    vals.foldr max 0 = 0 ∨ vals.foldr max 0 ∈ vals := by
  induction vals with
  | nil => exact Or.inl rfl
  | cons v vs ih =>
    simp only [List.foldr_cons]
    cases Nat.le_total v (vs.foldr max 0) with
    | inl h =>
      rw [Nat.max_eq_right h]
      rcases ih with h0 | hmem
      · exact Or.inl h0
      · exact Or.inr (List.mem_cons_of_mem _ hmem)
    | inr h =>
      rw [Nat.max_eq_left h]
      exact Or.inr (List.mem_cons_self _ _)

theorem seriesMax_attained (l : List (Nat × Nat)) :
    seriesMax l = 0 ∨ ∃ p ∈ l, p.2 = seriesMax l := by
  rcases foldr_max_attained (l.map Prod.snd) with h0 | hmem
  · exact Or.inl h0
  · rcases List.mem_map.mp hmem with ⟨p, hp, hps⟩
    exact Or.inr ⟨p, hp, hps⟩

theorem resample_pair_count (data : List Row) :
    ∀ d c, (d, c) ∈ resampleDailySize data → c = countOnDay data d := by
  intro d c hdc
  cases data with
  | nil => simp [resampleDailySize] at hdc
  | cons r0 rs =>
    unfold resampleDailySize at hdc
    dsimp only at hdc
    rw [List.mem_map] at hdc
    obtain ⟨i, _, heq⟩ := hdc
    rw [Prod.ext_iff] at heq
    obtain ⟨h1, h2⟩ := heq
    dsimp only at h1 h2
    rw [← h2, h1]

theorem resample_day_mem (data : List Row) :
    ∀ r ∈ data, (dayOf r.created_utc, countOnDay data (dayOf r.created_utc)) ∈
      resampleDailySize data := by
  intro r hr
  cases data with
  | nil => cases hr
  | cons r0 rs =>
    unfold resampleDailySize
    dsimp only
    rw [List.mem_map]
    have hdm : dayOf r.created_utc ∈ (r0 :: rs).map (fun x => dayOf x.created_utc) :=
      List.mem_map_of_mem _ hr
    have hlo : listMin ((r0 :: rs).map (fun x => dayOf x.created_utc)) ≤ dayOf r.created_utc :=
      listMin_le _ _ hdm
    have hhi : dayOf r.created_utc ≤ listMax ((r0 :: rs).map (fun x => dayOf x.created_utc)) :=
      le_listMax _ _ hdm
    refine ⟨dayOf r.created_utc - listMin ((r0 :: rs).map (fun x => dayOf x.created_utc)), ?_, ?_⟩
    · rw [List.mem_range]; omega
    · have harith : listMin ((r0 :: rs).map (fun x => dayOf x.created_utc)) +
          (dayOf r.created_utc - listMin ((r0 :: rs).map (fun x => dayOf x.created_utc))) =
          dayOf r.created_utc := by omega
      rw [harith]

/-- C3: every bucket of the daily resampling carries exactly the number
of rows whose timestamp falls on that bucket's calendar day, and every
row's day occurs as a bucket. -/
theorem c3_daily_resample_counts (data : List Row) :
    (∀ d c, (d, c) ∈ resampleDailySize data → c = countOnDay data d) ∧
    (∀ r ∈ data, (dayOf r.created_utc, countOnDay data (dayOf r.created_utc)) ∈
      resampleDailySize data) :=
  ⟨resample_pair_count data, resample_day_mem data⟩

/-- Fixed set of timestamps used as hand-computed witness data: two
posts on day 0 (epoch seconds 0 and 100) and one post on day 2
(second 172900); expected per-day counts 2, 0, 1. -/
def rowsT : List Row := [⟨0, "a", none, ""⟩, ⟨100, "a", none, ""⟩, ⟨172900, "a", none, ""⟩]

/-- C3 witness: on the fixed timestamps of `rowsT` the bucket of day 0
carries the hand-computed count 2, and day 2 (of the third post) occurs
as a bucket with its count. -/
theorem c3_daily_resample_counts_witness :
    2 = countOnDay rowsT 0 ∧ ((2 : Nat), countOnDay rowsT 2) ∈ resampleDailySize rowsT :=
  ⟨(c3_daily_resample_counts rowsT).1 0 2 (by decide),
   (c3_daily_resample_counts rowsT).2 ⟨172900, "a", none, ""⟩ (by decide)⟩

theorem resample_nonempty (data : List Row) (h : data ≠ []) :
    resampleDailySize data ≠ [] := by
  cases data with
  | nil => exact absurd rfl h
  | cons r0 rs =>
    unfold resampleDailySize
    dsimp only
    intro hcontra
    rw [List.map_eq_nil_iff, List.range_eq_nil] at hcontra
    have hd : dayOf r0.created_utc ∈ (r0 :: rs).map (fun x => dayOf x.created_utc) :=
      List.mem_map_of_mem _ (List.mem_cons_self _ _)
    have hlo := listMin_le _ _ hd
    have hhi := le_listMax _ _ hd
    omega

theorem day_le_listMax (data : List Row) (r : Row) (hr : r ∈ data) :
    dayOf r.created_utc ≤ listMax (data.map (fun x => dayOf x.created_utc)) :=
  le_listMax _ _ (List.mem_map_of_mem _ hr)

/-- C10: the value shown by the "Peak Posts in a Day" metric, which is
also the "Peak Posts" entry of the stats dict written into the PDF, is
the maximum per-day post count over the filtered rows whenever at least
one row matched, and is 0 whenever the daily series is empty. -/
theorem c10_peak_posts (filtered : List Row) :
    (filtered ≠ [] →
      (∀ d, countOnDay filtered d ≤ peakPostsMetric filtered) ∧
      (∃ d, countOnDay filtered d = peakPostsMetric filtered)) ∧
    (resampleDailySize filtered = [] → peakPostsMetric filtered = 0) ∧
    (∀ top_sub1, ("Peak Posts", toString (peakPostsMetric filtered)) ∈
      statsOf filtered top_sub1) := by
  refine ⟨?_, ?_, ?_⟩
  · intro hne
    have hts : resampleDailySize filtered ≠ [] := resample_nonempty filtered hne
    have hpeak : peakPostsMetric filtered = seriesMax (resampleDailySize filtered) := by
      unfold peakPostsMetric
      rw [if_pos (fun h0 => hts (List.length_eq_zero.mp h0))]
    constructor
    · intro d
      rw [hpeak]
      cases hc : countOnDay filtered d with
      | zero => exact Nat.zero_le _
      | succ n =>
        have hfil : (filtered.filter (fun r => dayOf r.created_utc = d)) ≠ [] := by
          intro h0
          unfold countOnDay at hc
          rw [h0] at hc
          cases hc
        rcases List.exists_mem_of_ne_nil _ hfil with ⟨r, hrmem⟩
        rw [List.mem_filter] at hrmem
        obtain ⟨hrdata, hrday⟩ := hrmem
        have hrd : dayOf r.created_utc = d := by
          have := of_decide_eq_true hrday
          exact this
        have hmem : (d, countOnDay filtered d) ∈ resampleDailySize filtered := by
          rw [← hrd]
          exact resample_day_mem filtered r hrdata
        have h2 := le_seriesMax _ _ hmem
        rw [hc] at h2
        exact h2
    · rcases seriesMax_attained (resampleDailySize filtered) with h0 | ⟨p, hp, hps⟩
      · refine ⟨listMax (filtered.map (fun x => dayOf x.created_utc)) + 1, ?_⟩
        rw [hpeak, h0]
        unfold countOnDay
        rw [List.length_eq_zero, List.filter_eq_nil_iff]
        intro r hr hday
        have hle := day_le_listMax filtered r hr
        have heq : dayOf r.created_utc =
            listMax (filtered.map (fun x => dayOf x.created_utc)) + 1 :=
          of_decide_eq_true hday
        omega
      · refine ⟨p.1, ?_⟩
        have hp' : (p.1, p.2) ∈ resampleDailySize filtered := by
          rw [Prod.mk.eta]
          exact hp
        have hcount := resample_pair_count filtered p.1 p.2 hp'
        rw [hpeak, ← hcount]
        exact hps
  · intro hts
    unfold peakPostsMetric
    rw [hts]
    rfl
  · intro top_sub1
    unfold statsOf
    simp

/-! ### Helper lemmas on the PDF embedding -/

theorem imgPage_ne_nil (p : String) : imgPage p ≠ [] := by
  simp [imgPage]

theorem addCharts_save (fs : String → Bool) (cps : List String) :
    ∀ (pages : List (List Op)) (cur : List Op), cur ≠ [] →
      savePDF (addCharts fs cps pages cur) =
        pages ++ cur :: (cps.filter (chartOk fs)).map imgPage := by
  induction cps with
  | nil =>
    intro pages cur hcur
    unfold addCharts savePDF
    rw [if_pos hcur]
    simp
  | cons c rest ih =>
    intro pages cur hcur
    unfold addCharts
    by_cases hc : chartOk fs c = true
    · rw [if_pos hc]
      rw [ih (pages ++ [cur]) (imgPage c) (imgPage_ne_nil c)]
      rw [List.filter_cons_of_pos hc]
      simp
    · rw [if_neg hc]
      rw [ih pages cur hcur]
      rw [List.filter_cons_of_neg (by simpa using hc)]

theorem drawKVs_mem (stats : List (String × String)) :
    ∀ (y0 : Int) (kv : String × String), kv ∈ stats →
      ∃ y, Op.drawString 40 y (kv.1 ++ ": " ++ kv.2) ∈ (drawKVs y0 stats).1 := by
  induction stats with
  | nil => intro y0 kv h; cases h
  | cons a rest ih =>
    intro y0 kv h
    rcases List.mem_cons.mp h with rfl | h'
    · refine ⟨y0 - 18, ?_⟩
      rw [drawKVs]
      exact List.mem_cons_self _ _
    · obtain ⟨y, hy⟩ := ih (y0 - 18) kv h'
      refine ⟨y, ?_⟩
      rw [drawKVs]
      exact List.mem_cons_of_mem _ hy

theorem drawTextLines_mem (lines : List String) :
    ∀ (y0 : Int) (line : String), line ∈ lines →
      ∃ y, Op.drawString 40 y line ∈ (drawTextLines y0 lines).1 := by
  induction lines with
  | nil => intro y0 line h; cases h
  | cons a rest ih =>
    intro y0 line h
    rcases List.mem_cons.mp h with rfl | h'
    · refine ⟨y0 - 15, ?_⟩
      rw [drawTextLines]
      exact List.mem_cons_self _ _
    · obtain ⟨y, hy⟩ := ih (y0 - 15) line h'
      refine ⟨y, ?_⟩
      rw [drawTextLines]
      exact List.mem_cons_of_mem _ hy

theorem textOps_title (d1 d2 : String) (stats : List (String × String)) (it : String)
    (note : Option String) :
    ∃ y, Op.drawString 30 y "Link Spread Insights Report" ∈ textOps d1 d2 stats it note := by
  refine ⟨792 - 50, ?_⟩
  unfold textOps
  dsimp only
  by_cases hd2 : d2 ≠ ""
  · rw [if_pos hd2]
    cases note <;> simp
  · rw [if_neg hd2]
    cases note <;> simp

theorem textOps_ne_nil (d1 d2 : String) (stats : List (String × String)) (it : String)
    (note : Option String) : textOps d1 d2 stats it note ≠ [] := by
  obtain ⟨y, hy⟩ := textOps_title d1 d2 stats it note
  exact List.ne_nil_of_mem hy

theorem generate_pdf_pages (d1 d2 : String) (stats : List (String × String)) (it : String)
    (note : Option String) (cps : List String) (fs : String → Bool) :
    generate_pdf d1 d2 stats it note cps fs =
      textOps d1 d2 stats it note :: (cps.filter (chartOk fs)).map imgPage := by
  unfold generate_pdf
  rw [addCharts_save fs cps [] _ (textOps_ne_nil d1 d2 stats it note)]
  rfl

/-- C10 witness on the fixed rows `rowsT`: the day-0 count is bounded by
the metric, the metric is attained on some day, and the "Peak Posts"
stat entry carries the same value. -/
theorem c10_peak_posts_witness :
    countOnDay rowsT 0 ≤ peakPostsMetric rowsT ∧
    (∃ d, countOnDay rowsT d = peakPostsMetric rowsT) ∧
    ("Peak Posts", toString (peakPostsMetric rowsT)) ∈ statsOf rowsT "a" :=
  ⟨((c10_peak_posts rowsT).1 (by decide)).1 0,
   ((c10_peak_posts rowsT).1 (by decide)).2,
   (c10_peak_posts rowsT).2.2 "a"⟩

/-- C4 counterexample: the claim promises one page per supplied chart
path, but a supplied path that does not exist on the filesystem
produces no page: with one supplied chart path and an empty filesystem
the document has a single page instead of two. -/
theorem c4_counterexample :
    (["ghost.png"] : List String).length = 1 ∧
    (generate_pdf "cnn.com" "" [("Total Posts", "1")] "insight" none
      ["ghost.png"] (fun _ => false)).length = 1 := by
  constructor
  · rfl
  · rw [generate_pdf_pages]
    rfl

/-- C4 amended: the generated document is one initial text page —
carrying the title, the domain line, every stat line and every insight
line — followed by one page per supplied chart path that is non-empty
and exists on the filesystem, in the order supplied. -/
theorem c4_pdf_layout (d1 d2 : String) (stats : List (String × String)) (it : String)
    (note : Option String) (cps : List String) (fs : String → Bool) :
    ∃ page0,
      generate_pdf d1 d2 stats it note cps fs =
        page0 :: (cps.filter (chartOk fs)).map imgPage ∧
      (∃ y, Op.drawString 30 y "Link Spread Insights Report" ∈ page0) ∧
      (∃ y, Op.drawString 30 y ("Domain 1: " ++ d1) ∈ page0) ∧
      (∀ kv ∈ stats, ∃ y, Op.drawString 40 y (kv.1 ++ ": " ++ kv.2) ∈ page0) ∧
      (∀ line ∈ it.splitOn "\n", ∃ y, Op.drawString 40 y line ∈ page0) := by
  refine ⟨textOps d1 d2 stats it note,
    generate_pdf_pages d1 d2 stats it note cps fs,
    textOps_title d1 d2 stats it note, ?_, ?_, ?_⟩
  · refine ⟨792 - 50 - 40, ?_⟩
    unfold textOps
    dsimp only
    by_cases hd2 : d2 ≠ ""
    · rw [if_pos hd2]
      cases note <;> simp
    · rw [if_neg hd2]
      cases note <;> simp
  · intro kv hkv
    unfold textOps
    dsimp only
    by_cases hd2 : d2 ≠ ""
    · rw [if_pos hd2]
      obtain ⟨y, hy⟩ := drawKVs_mem stats (792 - 50 - 40 - 20 - 40) kv hkv
      refine ⟨y, ?_⟩
      cases note with
      | none =>
        exact List.mem_append_left _ (List.mem_append_left _ (List.mem_append_right _ hy))
      | some n =>
        exact List.mem_append_left _
          (List.mem_append_left _ (List.mem_append_left _ (List.mem_append_right _ hy)))
    · rw [if_neg hd2]
      obtain ⟨y, hy⟩ := drawKVs_mem stats (792 - 50 - 40 - 40) kv hkv
      refine ⟨y, ?_⟩
      cases note with
      | none =>
        exact List.mem_append_left _ (List.mem_append_left _ (List.mem_append_right _ hy))
      | some n =>
        exact List.mem_append_left _
          (List.mem_append_left _ (List.mem_append_left _ (List.mem_append_right _ hy)))
  · intro line hline
    unfold textOps
    dsimp only
    by_cases hd2 : d2 ≠ ""
    · rw [if_pos hd2]
      obtain ⟨y, hy⟩ := drawTextLines_mem (it.splitOn "\n")
        ((drawKVs (792 - 50 - 40 - 20 - 40) stats).2 - 40) line hline
      refine ⟨y, ?_⟩
      cases note with
      | none => exact List.mem_append_right _ hy
      | some n => exact List.mem_append_left _ (List.mem_append_right _ hy)
    · rw [if_neg hd2]
      obtain ⟨y, hy⟩ := drawTextLines_mem (it.splitOn "\n")
        ((drawKVs (792 - 50 - 40 - 40) stats).2 - 40) line hline
      refine ⟨y, ?_⟩
      cases note with
      | none => exact List.mem_append_right _ hy
      | some n => exact List.mem_append_left _ (List.mem_append_right _ hy)

/-- C4 witness at concrete inputs: one existing chart path, one stat
and a two-line insight text. -/
theorem c4_pdf_layout_witness :
    (∃ page0,
      generate_pdf "cnn.com" "" [("Total Posts", "1")] "l1\nl2" none
        ["p.png"] (fun p => p == "p.png") =
        page0 :: ((["p.png"] : List String).filter (chartOk (fun p => p == "p.png"))).map imgPage ∧
      (∃ y, Op.drawString 30 y "Link Spread Insights Report" ∈ page0) ∧
      (∃ y, Op.drawString 30 y ("Domain 1: " ++ "cnn.com") ∈ page0) ∧
      (∀ kv ∈ [("Total Posts", "1")], ∃ y, Op.drawString 40 y (kv.1 ++ ": " ++ kv.2) ∈ page0) ∧
      (∀ line ∈ ("l1\nl2".splitOn "\n"), ∃ y, Op.drawString 40 y line ∈ page0)) :=
  c4_pdf_layout "cnn.com" "" [("Total Posts", "1")] "l1\nl2" none
    ["p.png"] (fun p => p == "p.png")

/-! ### Case-insensitivity of the filter -/

/-- Case-folded code point of a character. -/
def charLowerN (c : Char) : Nat := lowerN c.toNat

/-- Two query strings differ only in letter case: their case-folded
code-point sequences agree. -/
abbrev lowerEq (q1 q2 : String) : Prop :=
  q1.data.map charLowerN = q2.data.map charLowerN

/-- Key on which the matching behaviour of a token depends: the
case-folded code point for a literal, the constructor otherwise. -/
def tokKey : RTok → Nat ⊕ Nat
  | RTok.lit c => Sum.inl (lowerN c.toNat)
  | RTok.anyChar => Sum.inr 0
  | RTok.digit => Sum.inr 1
  | RTok.notDigit => Sum.inr 2

theorem tokMatches_congr {t1 t2 : RTok} (h : tokKey t1 = tokKey t2) (ch : Char) :
    tokMatches t1 ch = tokMatches t2 ch := by
  cases t1 <;> cases t2 <;> simp [tokKey] at h <;> simp [tokMatches]
  rw [h]

theorem matchAt_congr : ∀ (t1s t2s : List RTok), t1s.map tokKey = t2s.map tokKey →
    ∀ cs, matchAt t1s cs = matchAt t2s cs := by
  intro t1s
  induction t1s with
  | nil =>
    intro t2s h cs
    cases t2s with
    | nil => rfl
    | cons u us => simp at h
  | cons t ts ih =>
    intro t2s h cs
    cases t2s with
    | nil => simp at h
    | cons u us =>
      simp only [List.map_cons, List.cons.injEq] at h
      obtain ⟨h1, h2⟩ := h
      cases cs with
      | nil => rfl
      | cons c cs' =>
        show (tokMatches t c && matchAt ts cs') = (tokMatches u c && matchAt us cs')
        rw [tokMatches_congr h1 c, ih us h2 cs']

theorem rsearch_congr {t1s t2s : List RTok} (h : t1s.map tokKey = t2s.map tokKey) :
    ∀ cs, rsearch t1s cs = rsearch t2s cs := by
  intro cs
  induction cs with
  | nil => exact matchAt_congr t1s t2s h []
  | cons c cs' ih =>
    show (matchAt t1s (c :: cs') || rsearch t1s cs') =
      (matchAt t2s (c :: cs') || rsearch t2s cs')
    rw [matchAt_congr t1s t2s h (c :: cs'), ih]

theorem rowMatch_congr {t1s t2s : List RTok} (h : t1s.map tokKey = t2s.map tokKey) :
    rowMatch t1s = rowMatch t2s := by
  funext r
  unfold rowMatch
  cases r.domain with
  | none => rfl
  | some s => exact rsearch_congr h s.data

theorem code_eq_iff (k : Nat) (hk1 : ¬(65 ≤ k ∧ k ≤ 90)) (hk2 : ¬(97 ≤ k ∧ k ≤ 122))
    {n m : Nat} (h : lowerN n = lowerN m) : n = k ↔ m = k := by
  unfold lowerN at h
  split_ifs at h <;> omega

theorem isMetaN_congr {n m : Nat} (h : lowerN n = lowerN m) : isMetaN n = isMetaN m := by
  unfold isMetaN
  rw [decide_eq_decide]
  unfold lowerN at h
  split_ifs at h <;> omega

theorem char_eq_dot_iff (c : Char) : c = '.' ↔ c.toNat = 46 :=
  ⟨fun h => by rw [h]; rfl, fun h => char_eq_of_toNat_eq (by rw [h]; rfl)⟩

theorem parseTok_congr : ∀ (l1 l2 : List Char),
    l1.map charLowerN = l2.map charLowerN → '\\' ∉ l1 → '\\' ∉ l2 →
    Option.map (List.map tokKey) (parseTok l1) = Option.map (List.map tokKey) (parseTok l2) := by
  intro l1
  induction l1 with
  | nil =>
    intro l2 h _ _
    cases l2 with
    | nil => rfl
    | cons c cs => simp at h
  | cons c1 r1 ih =>
    intro l2 h hb1 hb2
    cases l2 with
    | nil => simp at h
    | cons c2 r2 =>
      simp only [List.map_cons, List.cons.injEq] at h
      obtain ⟨hc, hr⟩ := h
      have hc' : lowerN c1.toNat = lowerN c2.toNat := hc
      have hb1' : ¬(c1 = '\\') := fun heq => hb1 (List.mem_cons.mpr (Or.inl heq.symm))
      have hb2' : ¬(c2 = '\\') := fun heq => hb2 (List.mem_cons.mpr (Or.inl heq.symm))
      have hbt1 : '\\' ∉ r1 := fun hm => hb1 (List.mem_cons_of_mem _ hm)
      have hbt2 : '\\' ∉ r2 := fun hm => hb2 (List.mem_cons_of_mem _ hm)
      have hmeta : isMetaN c1.toNat = isMetaN c2.toNat := isMetaN_congr hc'
      rw [parseTok.eq_def, parseTok.eq_def]
      dsimp only
      rw [if_neg hb1', if_neg hb2']
      by_cases hm : isMetaN c1.toNat = true
      · rw [if_pos hm, if_pos (hmeta ▸ hm)]
      · have hm2 : ¬(isMetaN c2.toNat = true) := fun h2x => hm (by rw [hmeta]; exact h2x)
        rw [if_neg hm, if_neg hm2]
        have hdot : (c1 = '.') ↔ (c2 = '.') := by
          rw [char_eq_dot_iff, char_eq_dot_iff]
          exact code_eq_iff 46 (by omega) (by omega) hc'
        have hrec := ih r2 hr hbt1 hbt2
        by_cases hd : c1 = '.'
        · have hd2 : c2 = '.' := hdot.mp hd
          rw [if_pos hd, if_pos hd2]
          cases hp1 : parseTok r1 with
          | none =>
            cases hp2 : parseTok r2 with
            | none => rfl
            | some b => rw [hp1, hp2] at hrec; simp at hrec
          | some a =>
            cases hp2 : parseTok r2 with
            | none => rw [hp1, hp2] at hrec; simp at hrec
            | some b =>
              rw [hp1, hp2] at hrec
              simp only [Option.map_some', Option.some.injEq] at hrec
              simp only [Option.map_some', Option.some.injEq, List.map_cons]
              rw [hrec]
        · have hd2 : ¬(c2 = '.') := fun h2x => hd (hdot.mpr h2x)
          rw [if_neg hd, if_neg hd2]
          have hkey : tokKey (RTok.lit c1) = tokKey (RTok.lit c2) := by
            simp only [tokKey, Sum.inl.injEq]
            exact hc'
          cases hp1 : parseTok r1 with
          | none =>
            cases hp2 : parseTok r2 with
            | none => rfl
            | some b => rw [hp1, hp2] at hrec; simp at hrec
          | some a =>
            cases hp2 : parseTok r2 with
            | none => rw [hp1, hp2] at hrec; simp at hrec
            | some b =>
              rw [hp1, hp2] at hrec
              simp only [Option.map_some', Option.some.injEq] at hrec
              simp only [Option.map_some', Option.some.injEq, List.map_cons]
              rw [hrec, hkey]

theorem string_eq_empty_iff (q : String) : q = "" ↔ q.data = [] := by
  constructor
  · intro h; subst h; rfl
  · intro h; exact String.ext h

/-- C2 counterexample: the regex escapes `\d` (any digit) and `\D` (any
non-digit) differ only in the case of the letter `d`, yet on a table
whose single domain cell is `"111"` the first matches the row and the
second does not: `case=False` does not make `str.contains` insensitive
to the case of escape letters, the query being a regex. -/
theorem c2_counterexample :
    lowerEq "\\d" "\\D" ∧
    get_domain_data [rowOnes] "\\d" ≠ get_domain_data [rowOnes] "\\D" := by
  constructor
  · rfl
  · decide

theorem parseTok_isSome : ∀ (l : List Char), '\\' ∉ l →
    (∀ c ∈ l, isMetaN c.toNat = false) → (parseTok l).isSome = true := by
  intro l
  induction l with
  | nil => intro _ _; rfl
  | cons c r ih =>
    intro hb hm
    have hbc : ¬(c = '\\') := fun heq => hb (List.mem_cons.mpr (Or.inl heq.symm))
    have hmc : ¬(isMetaN c.toNat = true) := by
      rw [hm c (List.mem_cons_self _ _)]
      exact Bool.false_ne_true
    have hrec := ih (fun hx => hb (List.mem_cons_of_mem _ hx))
      (fun x hx => hm x (List.mem_cons_of_mem _ hx))
    rw [parseTok.eq_def]
    dsimp only
    rw [if_neg hbc, if_neg hmc]
    cases hp : parseTok r with
    | none => rw [hp] at hrec; cases hrec
    | some t => by_cases hd : c = '.' <;> simp [hd, hp]

/-- C2 amended: for every pair of query strings that differ only in
letter case and are built from literal characters and the `.` wildcard
only (no backslash and no other regex metacharacter — the region where
the query's regex semantics is plain case-folded matching), the domain
filter succeeds on both and returns identical row sets.  Outside this
region letter case can matter: escapes (`\d` vs `\D`, the
counterexample) and character classes (`[9-A]` vs `[9-a]`) select
different rows, and inline flags (`(?a)` vs `(?A)`) can turn a working
query into a raising one. -/
theorem c2_case_insensitive_filter (df : List Row) (q1 q2 : String)
    (hl : lowerEq q1 q2) (h1 : '\\' ∉ q1.data) (h2 : '\\' ∉ q2.data)
    (hm1 : ∀ c ∈ q1.data, isMetaN c.toNat = false)
    (_hm2 : ∀ c ∈ q2.data, isMetaN c.toNat = false) :
    get_domain_data df q1 = get_domain_data df q2 ∧
    (get_domain_data df q1).isSome = true := by
  constructor
  case right =>
    unfold get_domain_data
    by_cases hq1 : q1 = ""
    · rw [if_pos hq1]; rfl
    · rw [if_neg hq1]
      have hsome := parseTok_isSome q1.data h1 hm1
      cases hp : parseTok q1.data with
      | none => rw [hp] at hsome; cases hsome
      | some t => rfl
  case left =>
  unfold get_domain_data
  by_cases hq1 : q1 = ""
  · have hq2 : q2 = "" := by
      have hl' : q1.data.map charLowerN = q2.data.map charLowerN := hl
      rw [string_eq_empty_iff] at hq1 ⊢
      rw [hq1] at hl'
      exact List.map_eq_nil_iff.mp hl'.symm
    rw [if_pos hq1, if_pos hq2]
  · have hl' : q1.data.map charLowerN = q2.data.map charLowerN := hl
    have hq2 : ¬(q2 = "") := by
      intro h0
      apply hq1
      rw [string_eq_empty_iff] at h0 ⊢
      rw [h0] at hl'
      exact List.map_eq_nil_iff.mp hl'
    rw [if_neg hq1, if_neg hq2]
    have hpc := parseTok_congr q1.data q2.data hl h1 h2
    cases hp1 : parseTok q1.data with
    | none =>
      cases hp2 : parseTok q2.data with
      | none => rfl
      | some b => rw [hp1, hp2] at hpc; simp at hpc
    | some a =>
      cases hp2 : parseTok q2.data with
      | none => rw [hp1, hp2] at hpc; simp at hpc
      | some b =>
        rw [hp1, hp2] at hpc
        simp only [Option.map_some', Option.some.injEq] at hpc
        simp only [Option.map_some', Option.some.injEq]
        rw [rowMatch_congr hpc]

/-- C2 witness: `"CNN.com"` and `"cnn.com"` differ only in letter case
and consist of literals and dots, so on a concrete table both queries
succeed and filter to the same rows. -/
theorem c2_case_insensitive_filter_witness :
    (get_domain_data [rowCnn, rowNull, rowOnes] "CNN.com" =
     get_domain_data [rowCnn, rowNull, rowOnes] "cnn.com") ∧
    (get_domain_data [rowCnn, rowNull, rowOnes] "CNN.com").isSome = true :=
  c2_case_insensitive_filter [rowCnn, rowNull, rowOnes] "CNN.com" "cnn.com"
    (by decide) (by decide) (by decide) (by decide) (by decide)
